import Mathlib

/-!
Verification development for the fusion-and-alignment core of the
adaptor repository (`src/adaptor.py`).

The embedding follows the source closely:

* tensors are nested lists of rationals (`Vec`, `Mat`, `Tensor3`,
  `Tensor4`), with the batch axis outermost, matching torch's
  `[batch, seq, hidden]` layout;
* machine floats are modelled by `ℚ`; the transcendental primitives of
  the numeric runtime (`exp`, `log`, `gelu`, `tanh`) are abstracted as a
  record of rational functions (`FloatOps`), over which every theorem is
  universally quantified; the square root used by `Tensor.norm` is
  modelled by an exact rational square root (`ratSqrt`), which agrees
  with IEEE square root at `0` and at perfect squares — the only points
  any statement below depends on;
* the external text and vision encoders are opaque (their outputs are
  inputs of the embedded forward), exactly as the spec scopes them;
* fallible library operations (`torch.cat`, `nn.Linear` size checks)
  return `Except`, and `Adaptor.forward` additionally reports the list
  of pipeline stages it reached, so that statements about *where* a
  failure occurs can be made.
-/

/-- A 1-D tensor (one embedding vector). -/
abbrev Vec := List ℚ

/-- A 2-D tensor (a sequence of vectors, or a matrix given by rows). -/
abbrev Mat := List Vec

/-- A 3-D tensor `[batch, seq, hidden]`. -/
abbrev Tensor3 := List Mat

/-- A 4-D tensor `[batch, channels, height, width]`. -/
abbrev Tensor4 := List Tensor3

/-- Dot product of two vectors (`torch.matmul` on the last axis). -/
def dotQ (a b : Vec) : ℚ := (List.zipWith (fun x y => x * y) a b).sum

/-- Integer square root, computed as the largest `k ≤ n` with `k * k ≤ n`.
Structurally recursive so that concrete instances reduce. -/
def natSqrtL (n : Nat) : Nat :=
  ((List.range (n + 1)).filter (fun k => k * k ≤ n)).foldr max 0

/-- Exact rational square root: the model of the square root inside
`Tensor.norm`.  It is exact at `0` and at perfect squares (IEEE square
root is also exact there), which is all the statements below use. -/
def ratSqrt (q : ℚ) : ℚ := (natSqrtL q.num.toNat : ℚ) / (natSqrtL q.den : ℚ)

/-- Embeds `t.norm(dim=-1)` for one vector: the L2 norm, with no epsilon
term added — this is the exact denominator used at `src/adaptor.py`
lines 143–144 (`Project.forward`) and 229–230 (`Adaptor.forward`). -/
def l2norm (v : Vec) : ℚ := ratSqrt (dotQ v v)

/-- Embeds `t / t.norm(dim=-1, keepdim=True)` for one vector
(`src/adaptor.py` lines 143–144 and 229–230). -/
def l2normalize (v : Vec) : Vec := v.map (fun x => x / l2norm v)

/-- Apply a per-token function to every token vector of a `[B, L, H]`
tensor (how the projections and normalizations act on the last axis). -/
def mapTokens (f : Vec → Vec) (t : Tensor3) : Tensor3 := t.map (fun s => s.map f)

/-- The transcendental primitives of the floating-point runtime,
abstracted as rational functions.  Every theorem below is universally
quantified over them: none of the verified properties depends on their
values. -/
structure FloatOps where
  exp : ℚ → ℚ
  log : ℚ → ℚ
  gelu : ℚ → ℚ
  tanh : ℚ → ℚ

/-- Embeds `nn.Linear(in_f, out_f, bias=False)` applied to one vector:
`y = W x` with `W : [out_f, in_f]` given by rows. -/
def linearNoBias (W : Mat) (x : Vec) : Vec := W.map (fun row => dotQ row x)

/-- Embeds `nn.Linear(in_f, out_f)` (with bias) applied to one vector. -/
def nnLinear (W : Mat) (b : Vec) (x : Vec) : Vec :=
  List.zipWith (fun y c => y + c) (W.map (fun row => dotQ row x)) b

/-- Embeds `.T` / `.t()` on a 2-D tensor: entry `(i, j)` of the result is
entry `(j, i)` of the argument. -/
def matT (m : Mat) : Mat :=
  (List.range (m.headD []).length).map (fun j => m.map (fun row => row.getD j 0))

/-- Softmax over one score vector (the row-wise softmax inside every
attention layer). -/
def softmaxQ (ops : FloatOps) (s : Vec) : Vec :=
  let es := s.map ops.exp
  es.map (fun e => e / es.sum)

/-- LayerNorm over one vector, with learned scale `g` and shift `b`. -/
def layerNormQ (eps : ℚ) (g b x : Vec) : Vec :=
  let n : ℚ := x.length
  let mu := x.sum / n
  let var := ((x.map (fun t => (t - mu) * (t - mu))).sum) / n
  let den := ratSqrt (var + eps)
  List.zipWith (fun gk yk => gk * yk) g (x.map (fun t => (t - mu) / den))
    |>.zipWith (fun yk bk => yk + bk) b

/-- Weighted sum of the rows of `vs` with weights `w`
(`attention_probs @ value_layer` for one query position). -/
def weightedSumRows (w : Vec) (vs : Mat) : Vec := (matT vs).map (dotQ w)

/-- The configuration fields of the fusion stack that the embedded
computation reads (from the `BertConfig` held by `AdaptorModule`). -/
structure AdaptorConfig where
  attention_head_size : Nat
  layer_norm_eps : ℚ

/-- Learned parameters of one transformer encoder layer of the fusion
stack.  Models one `BertLayer` of the `BertEncoder` built at
`src/adaptor.py` line 27; attention is modelled single-headed (the head
split acts position-wise and is irrelevant to every property below), and
dropout layers are taken in inference mode (identity). -/
structure BertLayerParams where
  queryW : Mat
  queryB : Vec
  keyW : Mat
  keyB : Vec
  valueW : Mat
  valueB : Vec
  attnOutW : Mat
  attnOutB : Vec
  attnLnG : Vec
  attnLnB : Vec
  interW : Mat
  interB : Vec
  outW : Mat
  outB : Vec
  outLnG : Vec
  outLnB : Vec

/-- Self-attention of one layer on one batch element: `maskRow` is the
row of the extended (additive) attention mask for this batch element,
added to the attention scores of every query position. -/
def bertSelfAttention (ops : FloatOps) (cfg : AdaptorConfig) (p : BertLayerParams)
    (maskRow : Vec) (seq : Mat) : Mat :=
  let qs := seq.map (nnLinear p.queryW p.queryB)
  let ks := seq.map (nnLinear p.keyW p.keyB)
  let vs := seq.map (nnLinear p.valueW p.valueB)
  qs.map (fun q =>
    let scores := List.zipWith
      (fun k m => dotQ q k / ratSqrt (cfg.attention_head_size : ℚ) + m) ks maskRow
    weightedSumRows (softmaxQ ops scores) vs)

/-- One `BertLayer`: self-attention, residual + LayerNorm, feed-forward
with `gelu`, residual + LayerNorm. -/
def bertLayer (ops : FloatOps) (cfg : AdaptorConfig) (p : BertLayerParams)
    (maskRow : Vec) (seq : Mat) : Mat :=
  let attn := bertSelfAttention ops cfg p maskRow seq
  let attnOut := attn.map (nnLinear p.attnOutW p.attnOutB)
  let h1 := List.zipWith
    (fun x a => layerNormQ cfg.layer_norm_eps p.attnLnG p.attnLnB
      (List.zipWith (fun u w => u + w) a x)) seq attnOut
  let inter := h1.map (fun x => (nnLinear p.interW p.interB x).map ops.gelu)
  List.zipWith
    (fun h m => layerNormQ cfg.layer_norm_eps p.outLnG p.outLnB
      (List.zipWith (fun u w => u + w) (nnLinear p.outW p.outB m) h)) h1 inter

/-- The `BertEncoder` stack on one batch element: the layers applied in
order (cross-attention and key-value caching are disabled in this core,
as the spec records). -/
def bertEncoder (ops : FloatOps) (cfg : AdaptorConfig) (layers : List BertLayerParams)
    (maskRow : Vec) (seq : Mat) : Mat :=
  layers.foldl (fun s p => bertLayer ops cfg p maskRow s) seq

/-- `BertPooler` on one batch element: dense layer + `tanh` on the first
position of the sequence. -/
def bertPooler (ops : FloatOps) (W : Mat) (b : Vec) (seq : Mat) : Vec :=
  (nnLinear W b (seq.headD [])).map ops.tanh

/-- The exact value of `torch.finfo(torch.float32).min`. -/
def float32Min : ℚ := -(2 ^ 128 - 2 ^ 104)

/-- Embeds `ModuleUtilsMixin.get_extended_attention_mask` for a 2-D mask
(`src/adaptor.py` line 72): `(1.0 - mask) * finfo.min`, broadcast over
query positions (the `[:, None, None, :]` axes are the broadcast ones,
so one row per batch element suffices). -/
def get_extended_attention_mask (mask : Mat) : Mat :=
  mask.map (fun row => row.map (fun m => (1 - m) * float32Min))

/-- Failures the embedded forward can raise (modelling the Python
exceptions that actually occur in `src/adaptor.py`). -/
inductive PyError where
  /-- `torch.cat` raised: non-concatenated dimensions disagree. -/
  | runtimeErrorCatSizes : PyError
  /-- `image_embeds_raw` referenced at line 221 without being bound. -/
  | nameErrorImageEmbedsRaw : PyError
deriving DecidableEq

/-- The pipeline stages `Adaptor.forward` passes through, in order; used
to state *where* a failure occurs. -/
inductive Stage where
  | visionEncoderRun : Stage
  /-- the `else` branch at line 208 printed its message and fell through. -/
  | printedUnsupported : Stage
  | textEncoderRun : Stage
  | projectionRun : Stage
  /-- `self.adaptor_module(...)` (the Fusion Encoder call) was entered. -/
  | fusionEntered : Stage
  | fusionCompleted : Stage
  | logitsComputed : Stage
deriving DecidableEq

/-- The hidden width of a `[B, L, H]` tensor (length of its first token
vector). -/
def tensor3Hidden (t : Tensor3) : Nat := ((t.headD []).headD []).length

/-- Embeds `torch.cat([t, i], dim=1)` (`src/adaptor.py` line 26): defined
exactly when the non-concatenated dimensions (batch, hidden) agree,
otherwise it raises. -/
def catDim1 (t i : Tensor3) : Except PyError Tensor3 :=
  if t.length = i.length ∧ tensor3Hidden t = tensor3Hidden i then
    Except.ok (List.zipWith (fun a b => a ++ b) t i)
  else
    Except.error PyError.runtimeErrorCatSizes

/-- Learned parameters of `AdaptorModule` (the Fusion Encoder): the
`BertEncoder` layers and the `BertPooler`. -/
structure AdaptorModuleParams where
  layers : List BertLayerParams
  poolerW : Mat
  poolerB : Vec

/-- Embeds `AdaptorModule.forward` (`src/adaptor.py` lines 30–118) on the
paths this core exercises (no decoder mode, no cache, `return_dict`
results reduced to the pair the caller reads): concatenate text and
image embeddings along the sequence axis, synthesize an all-ones mask
when none is supplied, extend it to the additive form, run the encoder
stack, and pool position 0. -/
def AdaptorModule.forward (ops : FloatOps) (cfg : AdaptorConfig)
    (p : AdaptorModuleParams) (text_embeds image_embeds : Tensor3)
    (attention_mask : Option Mat) : Except PyError (Tensor3 × Mat) :=
  match catDim1 text_embeds image_embeds with
  | Except.error e => Except.error e
  | Except.ok inputs_embeds =>
    let batch_size := inputs_embeds.length
    let seq_length := (inputs_embeds.headD []).length
    let attention_mask :=
      attention_mask.getD (List.replicate batch_size (List.replicate seq_length 1))
    let extended_attention_mask := get_extended_attention_mask attention_mask
    let sequence_output :=
      List.zipWith (fun m s => bertEncoder ops cfg p.layers m s)
        extended_attention_mask inputs_embeds
    let pooled_output := sequence_output.map (bertPooler ops p.poolerW p.poolerB)
    Except.ok (sequence_output, pooled_output)

/-- Learned parameters of `Project`: the two bias-free projections. -/
structure ProjectParams where
  visual_projectionW : Mat
  text_projectionW : Mat

/-- Embeds `Project.forward` (`src/adaptor.py` lines 134–146): project
each modality with its own bias-free linear map, L2-normalize each token
vector, and return the pair `(image_embeds, text_embeds)` — in that
order, the swap of the argument order. -/
def Project.forward (p : ProjectParams) (text_embeds_ image_embeds_ : Tensor3) :
    Tensor3 × Tensor3 :=
  let text_embeds := mapTokens (linearNoBias p.text_projectionW) text_embeds_
  let image_embeds := mapTokens (linearNoBias p.visual_projectionW) image_embeds_
  let text_embeds2 := mapTokens l2normalize text_embeds
  let image_embeds2 := mapTokens l2normalize image_embeds
  (image_embeds2, text_embeds2)

/-- Embeds `nn.functional.cross_entropy(logits, torch.arange(len(logits)))`
(the `contrastive_loss` helper of `transformers`, called by `clip_loss`):
mean over rows of `log(sum(exp(row))) - row[i]`. -/
def crossEntropyQ (ops : FloatOps) (m : Mat) : ℚ :=
  ((m.enum.map (fun p => ops.log ((p.2.map ops.exp).sum) - p.2.getD p.1 0)).sum) /
    (m.length : ℚ)

/-- Embeds `transformers.models.clip.modeling_clip.clip_loss`, called at
`src/adaptor.py` line 239: the mean of the caption-side and image-side
cross-entropies. -/
def clip_lossQ (ops : FloatOps) (similarity : Mat) : ℚ :=
  let caption_loss := crossEntropyQ ops similarity
  let image_loss := crossEntropyQ ops (matT similarity)
  (caption_loss + image_loss) / 2

/-- Embeds `src/adaptor.py` lines 232–235: scaled cosine-similarity
logits from the position-0 summary token of each modality, and
`logits_per_image` obtained as the transpose of `logits_per_text`. -/
def logitsStage (ops : FloatOps) (logit_scale : ℚ)
    (text_embeds image_embeds : Tensor3) : Mat × Mat :=
  let scale := ops.exp logit_scale
  let text0 := text_embeds.map (fun s => s.headD [])
  let image0 := image_embeds.map (fun s => s.headD [])
  let logits_per_text := text0.map (fun t => image0.map (fun i => dotQ t i * scale))
  (logits_per_text, matT logits_per_text)

/-- The fields of the `CLIPOutput` returned by `Adaptor.forward`. -/
structure CLIPOutputQ where
  loss : Option ℚ
  logits_per_image : Mat
  logits_per_text : Mat
  text_embeds : Tensor3
  image_embeds : Tensor3
deriving DecidableEq

/-- Learned state of `Adaptor` relevant to `forward`. -/
structure AdaptorParams where
  proj : ProjectParams
  adaptor_module : AdaptorModuleParams
  vision_model_type : String
  logit_scale : ℚ

/-- What the opaque external vision model would produce under each of the
three supported adapters: `hf` is `last_hidden_state` of a huggingface
model, `timm` the raw timm features, `ae` the `z` latent `[B, C, H, W]`
of an autoencoder. -/
structure VisionOutputs where
  hf : Tensor3
  timm : Tensor3
  ae : Tensor4

/-- Embeds `torch.flatten(z, start_dim=2).permute((0, 2, 1))`
(`src/adaptor.py` line 206): flatten the spatial grid of each channel,
then swap the channel and spatial axes. -/
def aeReshape (z : Tensor4) : Tensor3 :=
  z.map (fun chans => matT (chans.map (fun grid => grid.flatten)))

/-- Embeds `Adaptor.forward` from line 219 on, once `image_embeds_raw` is
bound: projection, fusion, split at `text_seq_len`, re-normalization,
logits, loss (`src/adaptor.py` lines 219–253, `return_dict` path).  The
first component records the pipeline stages reached. -/
def Adaptor.forwardRest (ops : FloatOps) (cfg : AdaptorConfig) (p : AdaptorParams)
    (text_embeds_raw : Tensor3) (return_loss : Bool) (image_embeds_raw : Tensor3) :
    List Stage × Except PyError CLIPOutputQ :=
  let log0 := [Stage.visionEncoderRun, Stage.textEncoderRun]
  let pe := Project.forward p.proj text_embeds_raw image_embeds_raw
  let image_embeds := pe.1
  let text_embeds := pe.2
  let log1 := log0 ++ [Stage.projectionRun, Stage.fusionEntered]
  match AdaptorModule.forward ops cfg p.adaptor_module text_embeds image_embeds none with
  | Except.error e => (log1, Except.error e)
  | Except.ok outputs =>
    let text_seq_len := (text_embeds.headD []).length
    let text_embeds2 := outputs.1.map (fun row => row.take text_seq_len)
    let image_embeds2 := outputs.1.map (fun row => row.drop text_seq_len)
    let image_embeds3 := mapTokens l2normalize image_embeds2
    let text_embeds3 := mapTokens l2normalize text_embeds2
    let lp := logitsStage ops p.logit_scale text_embeds3 image_embeds3
    let logits_per_text := lp.1
    let logits_per_image := lp.2
    let loss := if return_loss then some (clip_lossQ ops logits_per_text) else none
    (log1 ++ [Stage.fusionCompleted, Stage.logitsComputed],
      Except.ok ⟨loss, logits_per_image, logits_per_text, text_embeds3, image_embeds3⟩)

/-- Embeds `Adaptor.forward` (`src/adaptor.py` lines 180–253).  The
dispatch on `vision_model_type` mirrors lines 194–208: the three
recognized tags select how the raw vision output is shaped; any other
tag *prints* "... is not supported." and falls through (recorded as
`Stage.printedUnsupported`), after which the text encoder still runs and
the call dies at line 221 with a `NameError` because `image_embeds_raw`
was never bound. -/
def Adaptor.forward (ops : FloatOps) (cfg : AdaptorConfig) (p : AdaptorParams)
    (vision : VisionOutputs) (text_embeds_raw : Tensor3) (return_loss : Bool) :
    List Stage × Except PyError CLIPOutputQ :=
  if p.vision_model_type = "huggingface" then
    Adaptor.forwardRest ops cfg p text_embeds_raw return_loss vision.hf
  else if p.vision_model_type = "timm" then
    Adaptor.forwardRest ops cfg p text_embeds_raw return_loss vision.timm
  else if p.vision_model_type = "ae" then
    Adaptor.forwardRest ops cfg p text_embeds_raw return_loss (aeReshape vision.ae)
  else
    ([Stage.printedUnsupported, Stage.textEncoderRun],
      Except.error PyError.nameErrorImageEmbedsRaw)

/-- Initialization effects of `Adaptor.__init__`, in source order. -/
inductive InitStage where
  /-- lines 161–162: `self.vision_model` / `self.text_model` assigned. -/
  | assignedEncoders : InitStage
  /-- lines 163–167: `self.projection = Project(...)` completed. -/
  | builtProjection : InitStage
  /-- line 168: `self.adaptor_module = AdaptorModule(...)` completed. -/
  | builtAdaptorModule : InitStage
  /-- line 174: `self.logit_scale` parameter built. -/
  | builtLogitScale : InitStage
deriving DecidableEq

/-- Failures `Adaptor.__init__` can raise. -/
inductive InitError where
  /-- `nn.Linear(None, d)`: `torch.empty` rejects a `None` size
  (a `TypeError`). -/
  | typeErrorLinearSizeNone : InitError
  /-- the `assert vision_output_dim is not None` at lines 176–178. -/
  | assertionErrorVisionOutputDim : InitError
deriving DecidableEq

/-- Embeds the size handling of `nn.Linear(in_features, out_features)`:
constructing the weight fails when the input width is `None`. -/
def nnLinearInitSize (in_features : Option Nat) (out_features : Nat) :
    Except InitError (Nat × Nat) :=
  match in_features with
  | none => Except.error InitError.typeErrorLinearSizeNone
  | some d => Except.ok (out_features, d)

/-- Embeds `Project.__init__` (`src/adaptor.py` lines 121–132): the
visual projection is built first (line 131), then the text projection
(line 132). -/
def Project.init (text_embed_dim : Nat) (vision_embed_dim : Option Nat)
    (projection_dim : Nat) : Except InitError Unit :=
  match nnLinearInitSize vision_embed_dim projection_dim with
  | Except.error e => Except.error e
  | Except.ok _ =>
    match nnLinearInitSize (some text_embed_dim) projection_dim with
    | Except.error e => Except.error e
    | Except.ok _ => Except.ok ()

/-- Embeds `Adaptor.__init__` (`src/adaptor.py` lines 149–178), tracking
the order of initialization effects: encoders are assigned (161–162),
then `Project` is constructed with `vision_embed_dim = vision_output_dim`
unconditionally (163–167), then the adaptor module and logit scale
(168–174), and only last runs the guard `if vision_model_type !=
'transformer': assert vision_output_dim is not None` (176–178). -/
def Adaptor.init (text_hidden_size : Nat) (vision_model_type : String)
    (vision_output_dim : Option Nat) (projection_dim : Nat) :
    List InitStage × Except InitError Unit :=
  let log := [InitStage.assignedEncoders]
  match Project.init text_hidden_size vision_output_dim projection_dim with
  | Except.error e => (log, Except.error e)
  | Except.ok _ =>
    let log := log ++ [InitStage.builtProjection, InitStage.builtAdaptorModule,
      InitStage.builtLogitScale]
    if vision_model_type ≠ "transformer" ∧ vision_output_dim = none then
      (log, Except.error InitError.assertionErrorVisionOutputDim)
    else
      (log, Except.ok ())

/-- `t` is a well-formed `[B, L, H]` tensor. -/
def HasShape (t : Tensor3) (B L H : Nat) : Prop :=
  t.length = B ∧ ∀ s ∈ t, s.length = L ∧ ∀ v ∈ s, v.length = H

instance (t : Tensor3) (B L H : Nat) : Decidable (HasShape t B L H) :=
  inferInstanceAs (Decidable (_ ∧ _))

/-- Big-step evaluation relation for `Adaptor.forward`: one derivation
rule per arm of the `vision_model_type` dispatch of lines 194–208, with
the guards of the earlier arms negated exactly as `elif` chains do. -/
inductive ForwardEval (ops : FloatOps) (cfg : AdaptorConfig) (p : AdaptorParams)
    (vision : VisionOutputs) (text_embeds_raw : Tensor3) (return_loss : Bool) :
    List Stage × Except PyError CLIPOutputQ → Prop where
  | huggingface (h : p.vision_model_type = "huggingface") :
      ForwardEval ops cfg p vision text_embeds_raw return_loss
        (Adaptor.forwardRest ops cfg p text_embeds_raw return_loss vision.hf)
  | timm (h1 : p.vision_model_type ≠ "huggingface")
      (h : p.vision_model_type = "timm") :
      ForwardEval ops cfg p vision text_embeds_raw return_loss
        (Adaptor.forwardRest ops cfg p text_embeds_raw return_loss vision.timm)
  | ae (h1 : p.vision_model_type ≠ "huggingface")
      (h2 : p.vision_model_type ≠ "timm")
      (h : p.vision_model_type = "ae") :
      ForwardEval ops cfg p vision text_embeds_raw return_loss
        (Adaptor.forwardRest ops cfg p text_embeds_raw return_loss (aeReshape vision.ae))
  | unsupported (h1 : p.vision_model_type ≠ "huggingface")
      (h2 : p.vision_model_type ≠ "timm")
      (h3 : p.vision_model_type ≠ "ae") :
      ForwardEval ops cfg p vision text_embeds_raw return_loss
        ([Stage.printedUnsupported, Stage.textEncoderRun],
          Except.error PyError.nameErrorImageEmbedsRaw)

/-- The symmetric contrastive loss over the reals, for the exact
statement of the loss algebra: `contrastive_loss` embeds
`nn.functional.cross_entropy(logits, torch.arange(n))` with mean
reduction. -/
noncomputable def contrastive_loss {n : ℕ} (logits : Matrix (Fin n) (Fin n) ℝ) : ℝ :=
  (∑ i, (Real.log (∑ j, Real.exp (logits i j)) - logits i i)) / n

/-- Embeds `transformers.clip_loss` over the reals: the caption-side
cross-entropy plus the image-side cross-entropy (of the transposed
similarity matrix), halved. -/
noncomputable def clip_loss {n : ℕ} (similarity : Matrix (Fin n) (Fin n) ℝ) : ℝ :=
  let caption_loss := contrastive_loss similarity
  let image_loss := contrastive_loss (Matrix.transpose similarity)
  (caption_loss + image_loss) / 2

/-- Embeds `src/adaptor.py` lines 237–239 over real-valued logits:
`loss = clip_loss(logits_per_text) if return_loss else None`. -/
noncomputable def Adaptor.lossStage {n : ℕ} (return_loss : Bool)
    (logits_per_text : Matrix (Fin n) (Fin n) ℝ) : Option ℝ :=
  if return_loss then some (clip_loss logits_per_text) else none

/-- A concrete instantiation of the abstract numeric primitives, used
only to evaluate the model on concrete inputs. -/
def testOps : FloatOps where
  exp := fun x => x + 1
  log := fun x => x - 1
  gelu := fun x => x
  tanh := fun x => x

/-- A concrete configuration for evaluating the model. -/
def testCfg : AdaptorConfig where
  attention_head_size := 64
  layer_norm_eps := 1 / 1000000000000

/-- Concrete adaptor parameters (projection width 1, zero fusion layers,
`huggingface` tag) for evaluating the model. -/
def testParamsHF : AdaptorParams where
  proj := { visual_projectionW := [[1]], text_projectionW := [[1]] }
  adaptor_module := { layers := [], poolerW := [[1]], poolerB := [0] }
  vision_model_type := "huggingface"
  logit_scale := 0

/-- Concrete adaptor parameters with an unrecognized vision tag. -/
def testParamsResnet : AdaptorParams where
  proj := { visual_projectionW := [[1]], text_projectionW := [[1]] }
  adaptor_module := { layers := [], poolerW := [[1]], poolerB := [0] }
  vision_model_type := "resnet50"
  logit_scale := 0

/-- Concrete vision-side outputs: batch 1, one image token, width 1. -/
def testVision : VisionOutputs where
  hf := [[[1]]]
  timm := [[[1]]]
  ae := [[[[1]]]]

/-- Concrete vision-side outputs with batch 3 (for the batch-mismatch
scenario). -/
def testVisionB3 : VisionOutputs where
  hf := [[[1]], [[1]], [[1]]]
  timm := [[[1]], [[1]], [[1]]]
  ae := [[[[1]]], [[[1]]], [[[1]]]]

/-- Concrete text-encoder output: batch 1, one token, width 1. -/
def testText : Tensor3 := [[[1]]]

/-- Concrete text-encoder output with batch 2. -/
def testTextB2 : Tensor3 := [[[1]], [[1]]]

/-- The successful output of the embedded forward at the concrete test
input (extracted from the `Except`; the error arm is never taken). -/
def testOut : CLIPOutputQ :=
  match (Adaptor.forward testOps testCfg testParamsHF testVision testText true).2 with
  | Except.ok o => o
  | Except.error _ => ⟨none, [], [], [], []⟩

/-- Any member of a list of naturals is bounded by the `foldr max 0`. -/
theorem le_foldr_max {a : Nat} : ∀ {l : List Nat}, a ∈ l → a ≤ l.foldr max 0 := by
  intro l h
  induction l with
  | nil => cases h
  | cons b t ih =>
    rcases List.mem_cons.mp h with rfl | hm
    · exact le_max_left _ _
    · exact le_trans (ih hm) (le_max_right _ _)

/-- The structural integer square root vanishes only at `0`. -/
theorem natSqrtL_eq_zero_iff (n : Nat) : natSqrtL n = 0 ↔ n = 0 := by
  constructor
  · intro h
    by_contra hn
    have h1 : 1 ∈ (List.range (n + 1)).filter (fun k => k * k ≤ n) := by
      refine List.mem_filter.mpr ⟨List.mem_range.mpr ?_, ?_⟩
      · omega
      · simpa using Nat.one_le_iff_ne_zero.mpr hn
    have := le_foldr_max h1
    unfold natSqrtL at h
    omega
  · intro h; subst h; rfl

/-- For nonnegative arguments, `ratSqrt` vanishes exactly at `0`. -/
theorem ratSqrt_eq_zero_iff {q : ℚ} (hq : 0 ≤ q) : ratSqrt q = 0 ↔ q = 0 := by
  unfold ratSqrt
  rw [div_eq_zero_iff]
  constructor
  · intro h
    rcases h with h | h
    · have hnum : natSqrtL q.num.toNat = 0 := by exact_mod_cast h
      have h0 : q.num.toNat = 0 := (natSqrtL_eq_zero_iff _).mp hnum
      have hle : q.num ≤ 0 := Int.toNat_eq_zero.mp h0
      have hge : 0 ≤ q.num := Rat.num_nonneg.mpr hq
      have : q.num = 0 := le_antisymm hle hge
      exact Rat.num_eq_zero.mp this
    · have hden : natSqrtL q.den = 0 := by exact_mod_cast h
      have : q.den = 0 := (natSqrtL_eq_zero_iff _).mp hden
      have := q.den_pos
      omega
  · intro h
    subst h
    left
    norm_num [natSqrtL_eq_zero_iff]

/-- The self dot product of a vector is a sum of squares. -/
theorem dotQ_self_eq_sum_sq (v : Vec) :
    dotQ v v = (v.map (fun x => x * x)).sum := by
  unfold dotQ
  induction v with
  | nil => rfl
  | cons x t ih => simp [List.zipWith, ih]

/-- A sum of squares is nonnegative. -/
theorem sum_sq_nonneg (v : Vec) : 0 ≤ (v.map (fun x => x * x)).sum := by
  induction v with
  | nil => simp
  | cons x t ih =>
    simp only [List.map_cons, List.sum_cons]
    have := mul_self_nonneg x
    linarith

/-- A sum of squares vanishes exactly when every entry vanishes. -/
theorem sum_sq_eq_zero_iff (v : Vec) :
    (v.map (fun x => x * x)).sum = 0 ↔ ∀ x ∈ v, x = 0 := by
  induction v with
  | nil => simp
  | cons x t ih =>
    simp only [List.map_cons, List.sum_cons, List.mem_cons]
    constructor
    · intro h
      have hx := mul_self_nonneg x
      have ht := sum_sq_nonneg t
      have hx0 : x * x = 0 := by linarith
      have hrest : (t.map (fun x => x * x)).sum = 0 := by linarith
      intro y hy
      rcases hy with rfl | hy
      · exact mul_self_eq_zero.mp hx0
      · exact ih.mp hrest y hy
    · intro h
      have hx : x = 0 := h x (Or.inl rfl)
      have ht : (t.map (fun x => x * x)).sum = 0 := ih.mpr (fun y hy => h y (Or.inr hy))
      simp [hx, ht]

/-- `l2normalize` is `v / l2norm v` elementwise: the denominator is the
raw norm itself, with no epsilon term. -/
theorem l2normalize_denominator (v : Vec) :
    l2normalize v = v.map (fun x => x / l2norm v) := rfl

/-- C4 counterexample: at the all-zero vector the denominator used by
the projection-head normalization (lines 143–144) and the post-fusion
renormalization (lines 229–230) is exactly `0` — no epsilon is added and
no guard is applied, contradicting the claim that it is never exactly
zero. -/
theorem l2norm_denominator_zero_counterexample : l2norm [(0 : ℚ), 0, 0] = 0 := by
  have h : dotQ [(0 : ℚ), 0, 0] [(0 : ℚ), 0, 0] = 0 := by norm_num [dotQ]
  unfold l2norm
  rw [h]
  exact (ratSqrt_eq_zero_iff le_rfl).mpr rfl

/-- C4 (amended): the L2 normalizations of `Project.forward` and of the
post-fusion renormalization divide by the raw L2 norm with no epsilon or
guard; that denominator is exactly zero precisely on the all-zero
vector, and is nonzero for every vector with a nonzero entry. -/
theorem l2norm_denominator_zero_iff_zero_vector (v : Vec) :
    l2normalize v = v.map (fun x => x / l2norm v)
      ∧ (l2norm v = 0 ↔ ∀ x ∈ v, x = 0) := by
  refine ⟨rfl, ?_⟩
  unfold l2norm
  rw [ratSqrt_eq_zero_iff (by rw [dotQ_self_eq_sum_sq]; exact sum_sq_nonneg v),
    dotQ_self_eq_sum_sq, sum_sq_eq_zero_iff]

/-- C2: evaluating `Adaptor.__init__` at the failing inputs.  With the
self-describing tag `huggingface` and `vision_output_dim` omitted the
constructor does *not* accept the omission: it dies with a `TypeError`
inside `Project` (the claim says it is accepted).  With the
non-self-describing tag `timm` and the dimension omitted it dies with
the same `TypeError` — after the submodel assignments and not with a
`ConfigurationError` — because the explicit guard compares the tag
against `'transformer'`, which is not any supported tag, and runs last.
With the dimension supplied, `huggingface` construction succeeds. -/
theorem adaptor_init_vision_output_dim_guard_misfires :
    Adaptor.init 768 "huggingface" none 512 =
      ([InitStage.assignedEncoders], Except.error InitError.typeErrorLinearSizeNone)
    ∧ Adaptor.init 768 "timm" none 512 =
      ([InitStage.assignedEncoders], Except.error InitError.typeErrorLinearSizeNone)
    ∧ (Adaptor.init 768 "huggingface" (some 512) 512).2 = Except.ok () := by
  refine ⟨rfl, rfl, rfl⟩

/-- C10: `Project.forward` takes `(text, image)` and returns the pair
swapped: the first component is the projected-and-normalized *image*
sequence (visual projection applied per token, then per-token L2
normalization) and the second is the projected-and-normalized *text*
sequence. -/
theorem project_forward_returns_swapped_pair (p : ProjectParams) (t i : Tensor3) :
    (Project.forward p t i).1 =
      i.map (fun s => s.map (fun v => l2normalize (linearNoBias p.visual_projectionW v)))
    ∧ (Project.forward p t i).2 =
      t.map (fun s => s.map (fun v => l2normalize (linearNoBias p.text_projectionW v))) := by
  constructor <;> simp [Project.forward, mapTokens, List.map_map, Function.comp]

/-- C6: with `return_loss` set, the loss is the cross-entropy of
`logits_per_text` against the identity target averaged with the
cross-entropy of `logits_per_image` (the transposed matrix) against the
same target — i.e. their sum halved — and this loss is symmetric:
recomputing it on the transposed logits yields the same value
exactly. -/
theorem clip_loss_formula_and_symmetry (n : ℕ) (L : Matrix (Fin n) (Fin n) ℝ) :
    Adaptor.lossStage true L =
      some ((contrastive_loss L + contrastive_loss (Matrix.transpose L)) / 2)
    ∧ clip_loss (Matrix.transpose L) = clip_loss L := by
  refine ⟨rfl, ?_⟩
  unfold clip_loss
  rw [Matrix.transpose_transpose]
  ring

/-- C1: for every input whose vision tag is not one of the three
supported variants, `Adaptor.forward` does *not* raise an
UnsupportedBackbone error: it prints "... is not supported.", continues
into the text encoder, and then dies with a `NameError` when the unbound
`image_embeds_raw` is referenced at line 221. -/
theorem adaptor_forward_unsupported_tag_prints_and_dies (ops : FloatOps)
    (cfg : AdaptorConfig) (p : AdaptorParams) (vision : VisionOutputs)
    (text : Tensor3) (rl : Bool)
    (h : p.vision_model_type ∉ ["huggingface", "timm", "ae"]) :
    Adaptor.forward ops cfg p vision text rl =
      ([Stage.printedUnsupported, Stage.textEncoderRun],
        Except.error PyError.nameErrorImageEmbedsRaw) := by
  simp only [List.mem_cons, List.not_mem_nil, or_false, not_or] at h
  unfold Adaptor.forward
  rw [if_neg h.1, if_neg h.2.1, if_neg h.2.2]

/-- C1 witness: the unsupported tag `resnet50` at a concrete input. -/
theorem adaptor_forward_unsupported_tag_prints_and_dies_witness :
    testParamsResnet.vision_model_type ∉ ["huggingface", "timm", "ae"]
    ∧ Adaptor.forward testOps testCfg testParamsResnet testVision testText true =
      ([Stage.printedUnsupported, Stage.textEncoderRun],
        Except.error PyError.nameErrorImageEmbedsRaw) :=
  ⟨by decide,
    adaptor_forward_unsupported_tag_prints_and_dies testOps testCfg testParamsResnet
      testVision testText true (by decide)⟩

/-- C3 counterexample: at text batch 2 and image batch 3 the forward
call does fail, but the failure is `torch.cat`'s shape error and it
occurs *after* the fusion module has been entered (`Stage.fusionEntered`
is in the reached-stage log) — not a `BatchSizeMismatch` raised before
the Fusion Encoder, as the claim states. -/
theorem batch_mismatch_counterexample :
    Stage.fusionEntered ∈
      (Adaptor.forward testOps testCfg testParamsHF testVisionB3 testTextB2 true).1
    ∧ (Adaptor.forward testOps testCfg testParamsHF testVisionB3 testTextB2 true).2 =
      Except.error PyError.runtimeErrorCatSizes := by
  exact ⟨by decide, rfl⟩

/-- C3 (amended): when the text and image batch sizes differ, the
forward call fails with the generic `torch.cat` size error raised at the
concatenation that begins the fusion module — i.e. inside the Fusion
Encoder call, before any encoder layer runs — and no `BatchSizeMismatch`
check exists before the Fusion Encoder is entered. -/
theorem batch_mismatch_cat_error_inside_fusion (ops : FloatOps) (cfg : AdaptorConfig)
    (p : AdaptorParams) (vision : VisionOutputs) (text : Tensor3) (rl : Bool)
    (htag : p.vision_model_type = "huggingface")
    (hB : text.length ≠ vision.hf.length) :
    Adaptor.forward ops cfg p vision text rl =
      ([Stage.visionEncoderRun, Stage.textEncoderRun, Stage.projectionRun,
        Stage.fusionEntered], Except.error PyError.runtimeErrorCatSizes) := by
  have hcat : catDim1 (Project.forward p.proj text vision.hf).2
      (Project.forward p.proj text vision.hf).1 =
      Except.error PyError.runtimeErrorCatSizes := by
    unfold catDim1
    rw [if_neg]
    intro hcon
    apply hB
    have h2 : (Project.forward p.proj text vision.hf).2.length = text.length := by
      simp [Project.forward, mapTokens]
    have h1 : (Project.forward p.proj text vision.hf).1.length = vision.hf.length := by
      simp [Project.forward, mapTokens]
    rw [← h2, ← h1]
    exact hcon.1
  have hmod : AdaptorModule.forward ops cfg p.adaptor_module
      (Project.forward p.proj text vision.hf).2
      (Project.forward p.proj text vision.hf).1 none =
      Except.error PyError.runtimeErrorCatSizes := by
    unfold AdaptorModule.forward
    rw [hcat]
  unfold Adaptor.forward
  rw [if_pos htag]
  simp only [Adaptor.forwardRest, hmod]
  rfl

/-- C3 witness for the amended statement: text batch 2 against image
batch 3. -/
theorem batch_mismatch_cat_error_inside_fusion_witness :
    testParamsHF.vision_model_type = "huggingface"
    ∧ testTextB2.length ≠ testVisionB3.hf.length
    ∧ Adaptor.forward testOps testCfg testParamsHF testVisionB3 testTextB2 true =
      ([Stage.visionEncoderRun, Stage.textEncoderRun, Stage.projectionRun,
        Stage.fusionEntered], Except.error PyError.runtimeErrorCatSizes) :=
  ⟨rfl, by decide,
    batch_mismatch_cat_error_inside_fusion testOps testCfg testParamsHF testVisionB3
      testTextB2 true rfl (by decide)⟩

/-- Transposing a nonempty row-major "outer map" matrix yields the
column-major double map. -/
theorem matT_map_map {α β : Type} (x0 : α) (xs : List α) (ys : List β)
    (f : α → β → ℚ) :
    matT ((x0 :: xs).map (fun x => ys.map (f x))) =
      ys.map (fun y => (x0 :: xs).map (fun x => f x y)) := by
  apply List.ext_getElem
  · simp [matT]
  · intro j h1 h2
    have hj : j < ys.length := by simpa [matT] using h1
    simp only [matT, List.getElem_map, List.getElem_range, List.map_map]
    show (x0 :: xs).map
        ((fun row => row.getD j 0) ∘ (fun x => ys.map (f x))) = _
    apply List.map_congr_left
    intro a _
    show (ys.map (f a)).getD j 0 = f a ys[j]
    rw [List.getD_eq_getElem _ _ (by simpa using hj), List.getElem_map]

/-- The second component of `logitsStage` (the `.T` of line 235), written
as the direct image-major computation. -/
theorem logitsStage_snd (ops : FloatOps) (scale : ℚ) (t i : Tensor3) (ht : t ≠ []) :
    (logitsStage ops scale t i).2 =
      (i.map (fun s => s.headD [])).map (fun iv =>
        (t.map (fun s => s.headD [])).map (fun tv => dotQ tv iv * ops.exp scale)) := by
  obtain ⟨t0, ts, rfl⟩ := List.exists_cons_of_ne_nil ht
  show matT (((t0 :: ts).map (fun s => s.headD [])).map
      (fun tv => (i.map (fun s => s.headD [])).map
        (fun iv => dotQ tv iv * ops.exp scale))) = _
  rw [List.map_cons]
  exact matT_map_map _ _ _ _

/-- A successful `Adaptor.forward` went through `Adaptor.forwardRest` on
one of the three recognized vision branches. -/
theorem forward_ok_exists (ops : FloatOps) (cfg : AdaptorConfig) (p : AdaptorParams)
    (vision : VisionOutputs) (text : Tensor3) (rl : Bool)
    (log : List Stage) (out : CLIPOutputQ)
    (h : Adaptor.forward ops cfg p vision text rl = (log, Except.ok out)) :
    ∃ raw, Adaptor.forwardRest ops cfg p text rl raw = (log, Except.ok out) := by
  unfold Adaptor.forward at h
  by_cases h1 : p.vision_model_type = "huggingface"
  · rw [if_pos h1] at h; exact ⟨vision.hf, h⟩
  · rw [if_neg h1] at h
    by_cases h2 : p.vision_model_type = "timm"
    · rw [if_pos h2] at h; exact ⟨vision.timm, h⟩
    · rw [if_neg h2] at h
      by_cases h3 : p.vision_model_type = "ae"
      · rw [if_pos h3] at h; exact ⟨aeReshape vision.ae, h⟩
      · rw [if_neg h3] at h; exact absurd h (by simp)

/-- The logits fields of a successful `Adaptor.forwardRest` output are
exactly the `logitsStage` of its returned (post-fusion, re-normalized)
embeddings. -/
theorem forwardRest_ok_fields (ops : FloatOps) (cfg : AdaptorConfig)
    (p : AdaptorParams) (text : Tensor3) (rl : Bool) (raw : Tensor3)
    (log : List Stage) (out : CLIPOutputQ)
    (h : Adaptor.forwardRest ops cfg p text rl raw = (log, Except.ok out)) :
    out.logits_per_text =
      (logitsStage ops p.logit_scale out.text_embeds out.image_embeds).1
    ∧ out.logits_per_image =
      (logitsStage ops p.logit_scale out.text_embeds out.image_embeds).2 := by
  simp only [Adaptor.forwardRest] at h
  split at h
  · exact absurd h (by simp)
  · injection h with hl hr
    injection hr with ho
    subst ho
    exact ⟨rfl, rfl⟩

/-- C5: for every successful forward call with batch size at least 1,
the returned `logits_per_image` is the exact transpose of the returned
`logits_per_text` (it is derived from it by `.T` at line 235), and hence
coincides entrywise with the image-major similarity computation. -/
theorem logits_per_image_transpose (ops : FloatOps) (cfg : AdaptorConfig)
    (p : AdaptorParams) (vision : VisionOutputs) (text : Tensor3) (rl : Bool)
    (log : List Stage) (out : CLIPOutputQ)
    (hf : Adaptor.forward ops cfg p vision text rl = (log, Except.ok out))
    (hB : 0 < out.text_embeds.length) :
    out.logits_per_image = matT out.logits_per_text
    ∧ out.logits_per_image =
      (out.image_embeds.map (fun s => s.headD [])).map (fun iv =>
        (out.text_embeds.map (fun s => s.headD [])).map
          (fun tv => dotQ tv iv * ops.exp p.logit_scale)) := by
  obtain ⟨raw, hr⟩ := forward_ok_exists ops cfg p vision text rl log out hf
  obtain ⟨h1, h2⟩ := forwardRest_ok_fields ops cfg p text rl raw log out hr
  constructor
  · rw [h1, h2]
    rfl
  · rw [h2]
    exact logitsStage_snd ops p.logit_scale _ _ (List.length_pos.mp hB)

/-- C5 witness: the concrete batch-1 forward call. -/
theorem logits_per_image_transpose_witness :
    0 < testOut.text_embeds.length
    ∧ (testOut.logits_per_image = matT testOut.logits_per_text
      ∧ testOut.logits_per_image =
        (testOut.image_embeds.map (fun s => s.headD [])).map (fun iv =>
          (testOut.text_embeds.map (fun s => s.headD [])).map
            (fun tv => dotQ tv iv * testOps.exp testParamsHF.logit_scale))) :=
  ⟨by decide,
    logits_per_image_transpose testOps testCfg testParamsHF testVision testText true
      (Adaptor.forward testOps testCfg testParamsHF testVision testText true).1
      testOut rfl (by decide)⟩

/-- A pointwise property of the inputs transfers to every member of a
`zipWith`. -/
theorem forall_mem_zipWith {α β γ : Type} {f : α → β → γ} {P : γ → Prop} :
    ∀ {l1 : List α} {l2 : List β},
      (∀ a ∈ l1, ∀ b ∈ l2, P (f a b)) → ∀ c ∈ List.zipWith f l1 l2, P c := by
  intro l1
  induction l1 with
  | nil => intro l2 h c hc; simp at hc
  | cons a t ih =>
    intro l2 h c hc
    cases l2 with
    | nil => simp at hc
    | cons b u =>
      rcases List.mem_cons.mp hc with rfl | hc2
      · exact h a (by simp) b (by simp)
      · exact ih
          (fun x hx y hy => h x (List.mem_cons_of_mem _ hx) y (List.mem_cons_of_mem _ hy))
          c hc2

/-- Self-attention preserves the number of positions. -/
theorem bertSelfAttention_length (ops : FloatOps) (cfg : AdaptorConfig)
    (p : BertLayerParams) (maskRow : Vec) (seq : Mat) :
    (bertSelfAttention ops cfg p maskRow seq).length = seq.length := by
  simp [bertSelfAttention]

/-- One encoder layer preserves the number of positions. -/
theorem bertLayer_length (ops : FloatOps) (cfg : AdaptorConfig)
    (p : BertLayerParams) (maskRow : Vec) (seq : Mat) :
    (bertLayer ops cfg p maskRow seq).length = seq.length := by
  simp [bertLayer, List.length_zipWith, bertSelfAttention_length]

/-- The whole encoder stack preserves the number of positions. -/
theorem bertEncoder_length (ops : FloatOps) (cfg : AdaptorConfig) :
    ∀ (layers : List BertLayerParams) (maskRow : Vec) (seq : Mat),
      (bertEncoder ops cfg layers maskRow seq).length = seq.length := by
  intro layers
  induction layers with
  | nil => intro m s; rfl
  | cons l ls ih =>
    intro m s
    have hstep : bertEncoder ops cfg (l :: ls) m s =
        bertEncoder ops cfg ls m (bertLayer ops cfg l m s) := rfl
    rw [hstep, ih, bertLayer_length]

/-- With well-formed inputs of equal batch and hidden sizes, the
concatenation at the start of the fusion module succeeds. -/
theorem catDim1_ok_of {t i : Tensor3} {B Lt Li H : Nat}
    (hLt : 1 ≤ Lt) (hLi : 1 ≤ Li) (hT : HasShape t B Lt H) (hI : HasShape i B Li H) :
    catDim1 t i = Except.ok (List.zipWith (fun a b => a ++ b) t i) := by
  unfold catDim1
  rw [if_pos]
  refine ⟨by rw [hT.1, hI.1], ?_⟩
  cases t with
  | nil =>
    have hB : B = 0 := by simpa using hT.1.symm
    have hi0 : i.length = 0 := by rw [hI.1, hB]
    rw [List.length_eq_zero] at hi0
    subst hi0
    rfl
  | cons t0 ts =>
    have hBpos : 0 < B := by rw [← hT.1]; simp
    cases i with
    | nil =>
      exfalso
      have hi : (List.nil : Tensor3).length = B := hI.1
      simp at hi
      omega
    | cons i0 is =>
      obtain ⟨ht0len, ht0v⟩ := hT.2 t0 (List.mem_cons_self _ _)
      obtain ⟨hi0len, hi0v⟩ := hI.2 i0 (List.mem_cons_self _ _)
      cases t0 with
      | nil => exfalso; simp at ht0len; omega
      | cons v vs =>
        cases i0 with
        | nil => exfalso; simp at hi0len; omega
        | cons w ws =>
          simp only [tensor3Hidden, List.headD_cons]
          rw [ht0v v (List.mem_cons_self _ _), hi0v w (List.mem_cons_self _ _)]

/-- C7: for well-formed inputs with text length `Lt ≥ 1` and image
length `Li ≥ 1` and any batch size `B`, the fusion module succeeds, its
output has `B` rows, every output row has exactly `Lt + Li` positions
(the Fusion Encoder preserves sequence length), and splitting any row at
`Lt` yields a text slice of exactly `Lt` positions and an image slice of
exactly `Li` positions. -/
theorem fusion_preserves_sequence_length (ops : FloatOps) (cfg : AdaptorConfig)
    (p : AdaptorModuleParams) (t i : Tensor3) (B Lt Li H : Nat)
    (hLt : 1 ≤ Lt) (hLi : 1 ≤ Li) (hT : HasShape t B Lt H) (hI : HasShape i B Li H) :
    ∃ seqOut pooled,
      AdaptorModule.forward ops cfg p t i none = Except.ok (seqOut, pooled)
      ∧ seqOut.length = B
      ∧ ∀ row ∈ seqOut, row.length = Lt + Li
        ∧ (row.take Lt).length = Lt ∧ (row.drop Lt).length = Li := by
  have hcat := catDim1_ok_of hLt hLi hT hI
  have hrows : ∀ s ∈ List.zipWith (fun a b => a ++ b) t i, s.length = Lt + Li := by
    apply forall_mem_zipWith
    intro a ha b hb
    simp [(hT.2 a ha).1, (hI.2 b hb).1]
  unfold AdaptorModule.forward
  rw [hcat]
  refine ⟨_, _, rfl, ?_, ?_⟩
  · simp [get_extended_attention_mask, List.length_zipWith, hT.1, hI.1]
  · apply forall_mem_zipWith
    intro m _ s hs
    have hlen : (bertEncoder ops cfg p.layers m s).length = Lt + Li := by
      rw [bertEncoder_length, hrows s hs]
    refine ⟨hlen, ?_, ?_⟩
    · rw [List.length_take, hlen]; omega
    · rw [List.length_drop, hlen]; omega

/-- C7 witness: batch 1, text length 1, image length 2, hidden width 1. -/
theorem fusion_preserves_sequence_length_witness :
    1 ≤ 1 ∧ 1 ≤ 2 ∧ HasShape [[[(1 : ℚ)]]] 1 1 1
    ∧ HasShape [[[(1 : ℚ)], [2]]] 1 2 1
    ∧ (∃ seqOut pooled,
        AdaptorModule.forward testOps testCfg testParamsHF.adaptor_module
          [[[(1 : ℚ)]]] [[[(1 : ℚ)], [2]]] none = Except.ok (seqOut, pooled)
        ∧ seqOut.length = 1
        ∧ ∀ row ∈ seqOut, row.length = 1 + 2
          ∧ (row.take 1).length = 1 ∧ (row.drop 1).length = 2) :=
  ⟨by decide, by decide, by decide, by decide,
    fusion_preserves_sequence_length testOps testCfg testParamsHF.adaptor_module
      [[[(1 : ℚ)]]] [[[(1 : ℚ)], [2]]] 1 1 2 1
      (by decide) (by decide) (by decide) (by decide)⟩

/-- C8: running the fusion module with an explicitly supplied all-ones
attention mask of the correct shape produces exactly the same result as
running it with the mask omitted (the synthesized default of line 66 is
that same all-ones mask). -/
theorem default_mask_equals_all_ones (ops : FloatOps) (cfg : AdaptorConfig)
    (p : AdaptorModuleParams) (t i : Tensor3) (B L : Nat) (fused : Tensor3)
    (hcat : catDim1 t i = Except.ok fused)
    (hB : fused.length = B) (hL : (fused.headD []).length = L) :
    AdaptorModule.forward ops cfg p t i
      (some (List.replicate B (List.replicate L 1))) =
    AdaptorModule.forward ops cfg p t i none := by
  subst hB hL
  unfold AdaptorModule.forward
  rw [hcat]
  rfl

/-- C8 witness: batch 1, fused length 2. -/
theorem default_mask_equals_all_ones_witness :
    catDim1 [[[(1 : ℚ)]]] [[[(1 : ℚ)]]] = Except.ok [[[(1 : ℚ)], [1]]]
    ∧ ([[[(1 : ℚ)], [1]]] : Tensor3).length = 1
    ∧ (([[[(1 : ℚ)], [1]]] : Tensor3).headD []).length = 2
    ∧ AdaptorModule.forward testOps testCfg testParamsHF.adaptor_module
        [[[(1 : ℚ)]]] [[[(1 : ℚ)]]]
        (some (List.replicate 1 (List.replicate 2 1))) =
      AdaptorModule.forward testOps testCfg testParamsHF.adaptor_module
        [[[(1 : ℚ)]]] [[[(1 : ℚ)]]] none :=
  ⟨rfl, rfl, rfl,
    default_mask_equals_all_ones testOps testCfg testParamsHF.adaptor_module
      [[[(1 : ℚ)]]] [[[(1 : ℚ)]]] 1 2 [[[(1 : ℚ)], [1]]] rfl rfl rfl⟩

/-- The evaluation relation is total: it derives exactly the value of
the (pure) embedded `Adaptor.forward`. -/
theorem forwardEval_forward (ops : FloatOps) (cfg : AdaptorConfig) (p : AdaptorParams)
    (vision : VisionOutputs) (text : Tensor3) (rl : Bool) :
    ForwardEval ops cfg p vision text rl (Adaptor.forward ops cfg p vision text rl) := by
  unfold Adaptor.forward
  by_cases hh : p.vision_model_type = "huggingface"
  · rw [if_pos hh]; exact ForwardEval.huggingface hh
  · rw [if_neg hh]
    by_cases ht : p.vision_model_type = "timm"
    · rw [if_pos ht]; exact ForwardEval.timm hh ht
    · rw [if_neg ht]
      by_cases ha : p.vision_model_type = "ae"
      · rw [if_pos ha]; exact ForwardEval.ae hh ht ha
      · rw [if_neg ha]; exact ForwardEval.unsupported hh ht ha

/-- C9: the forward computation is deterministic — any two evaluations
of `Adaptor.forward` on identical inputs and identical parameters derive
identical outputs (the computation is pure: no I/O, no hidden state, no
randomness in any branch). -/
theorem adaptor_forward_deterministic (ops : FloatOps) (cfg : AdaptorConfig)
    (p : AdaptorParams) (vision : VisionOutputs) (text : Tensor3) (rl : Bool)
    (o1 o2 : List Stage × Except PyError CLIPOutputQ)
    (h1 : ForwardEval ops cfg p vision text rl o1)
    (h2 : ForwardEval ops cfg p vision text rl o2) : o1 = o2 := by
  cases h1 <;> cases h2 <;> simp_all

/-- C9 witness: two evaluations at the concrete input produce the same
result. -/
theorem adaptor_forward_deterministic_witness :
    Adaptor.forwardRest testOps testCfg testParamsHF testText true testVision.hf =
      Adaptor.forward testOps testCfg testParamsHF testVision testText true :=
  adaptor_forward_deterministic testOps testCfg testParamsHF testVision testText true _ _
    (ForwardEval.huggingface rfl)
    (forwardEval_forward testOps testCfg testParamsHF testVision testText true)
